import Mathlib

/-!
Verification development for the `type-benchmarks` repository.

The repository's measurement harness consists of three parts, embedded here:

* the Type-Check Prober (`measureTypeChecking` in `measure-typechecking.ts`),
* the Benchmark Runner (`runBenchmark` and `main` in `measure-typechecking.ts`),
* the Batch Orchestrator (the top-level flow of `test.ts`).

The Prober's interaction with the file system and the TypeScript compiler is
modelled by an explicit environment (`ProbeEnv`): the environment records what
the outside world does on one call (whether the resolved path exists, whether a
`tsconfig.json` was found, whether the try-block throws, and the readings the
monotone millisecond clock `performance.now()` returns).  Durations are
rationals: JavaScript numbers are IEEE doubles, but every claim here is about
the arithmetic structure of the computation, not about rounding of binary
floating point, so exact rational arithmetic is the faithful granularity.
-/

namespace TypeBench

/-- Millisecond durations and clock readings (`performance.now()` values). -/
abbrev Time := ℚ

/-- The `TimingResult` interface of `measure-typechecking.ts`:
one observation of a single probe. -/
structure TimingResult where
  file : String
  typeCheckTime : Time
  totalTime : Time
  diagnosticsCount : Nat
  success : Bool
  error : Option String
deriving DecidableEq

/-- What the try-block of `measureTypeChecking` does once a config path was
found: either some step (`readConfigFile` / `parseJsonConfigFileContent` /
`createProgram` / diagnostic collection) throws with a message, or the whole
block succeeds, yielding the clock readings `startTypeCheck`, `endTypeCheck`,
`endTotal` and the total diagnostic count (semantic + syntactic + global). -/
inductive TryOutcome where
  | throwsErr (msg : String)
  | ok (startTypeCheck endTypeCheck endTotal : Time) (diagnosticsCount : Nat)
deriving DecidableEq

/-- Environment of one call of `measureTypeChecking`: the file name argument,
what `path.resolve` and `fs.existsSync` answer, the clock reading taken at
`startTotal`, the result of `ts.findConfigFile`, the behaviour of the rest of
the try-block, and the clock reading `performance.now()` returns inside the
`catch` block (at most one catch executes per call, so one reading suffices). -/
structure ProbeEnv where
  fileName : String
  resolvedPath : String
  fileExists : Bool
  startTotal : Time
  configPath : Option String
  tryOutcome : TryOutcome
  catchTime : Time
deriving DecidableEq

/-- Clock readings of a try-block outcome are in program order relative to the
`startTotal` reading taken before the block. -/
def TryOutcome.wfAt (startTotal : Time) : TryOutcome → Prop
  | .throwsErr _ => True
  | .ok st et etot _ => startTotal ≤ st ∧ st ≤ et ∧ et ≤ etot

instance (s : Time) : (t : TryOutcome) → Decidable (t.wfAt s)
  | .throwsErr _ => .isTrue trivial
  | .ok st et etot _ =>
    inferInstanceAs (Decidable (s ≤ st ∧ st ≤ et ∧ et ≤ etot))

/-- The clock `performance.now()` is monotone: readings are taken in program
order `startTotal ≤ startTypeCheck ≤ endTypeCheck ≤ endTotal` and
`startTotal ≤ catchTime`. -/
def ProbeEnv.wf (e : ProbeEnv) : Prop :=
  e.startTotal ≤ e.catchTime ∧ e.tryOutcome.wfAt e.startTotal

instance (e : ProbeEnv) : Decidable e.wf :=
  inferInstanceAs (Decidable (_ ∧ _))

/-- Shallow embedding of `measureTypeChecking` (lines 15-83 of
`measure-typechecking.ts`).  The three return sites of the source are the three
branches: missing file, caught exception (config not found or a later throw),
and success. -/
def measureTypeChecking (e : ProbeEnv) : TimingResult :=
  if e.fileExists = false then
    { file := e.fileName
      typeCheckTime := 0
      totalTime := 0
      diagnosticsCount := 0
      success := false
      error := some ("File not found: " ++ e.resolvedPath) }
  else
    match e.configPath with
    | none =>
      -- `throw new Error("Could not find a valid 'tsconfig.json'.")`,
      -- caught by the catch-block of the same function.
      { file := e.fileName
        typeCheckTime := 0
        totalTime := e.catchTime - e.startTotal
        diagnosticsCount := 0
        success := false
        error := some "Could not find a valid 'tsconfig.json'." }
    | some _ =>
      match e.tryOutcome with
      | .throwsErr msg =>
        { file := e.fileName
          typeCheckTime := 0
          totalTime := e.catchTime - e.startTotal
          diagnosticsCount := 0
          success := false
          error := some msg }
      | .ok st et etot diag =>
        { file := e.fileName
          typeCheckTime := et - st
          totalTime := etot - e.startTotal
          diagnosticsCount := diag
          success := true
          error := none }

/-- C5: for a path whose resolved absolute location does not exist, the Prober
returns (it does not throw: `measureTypeChecking` is a total function into
`TimingResult`) a failed Measurement whose non-empty error message names the
missing resolved path and whose `typeCheckTime` and `totalTime` are both 0. -/
theorem prober_missing_file_failure (e : ProbeEnv)
    (h : e.fileExists = false) :
    (measureTypeChecking e).success = false ∧
    (measureTypeChecking e).error = some ("File not found: " ++ e.resolvedPath) ∧
    ("File not found: " ++ e.resolvedPath) ≠ "" ∧
    (measureTypeChecking e).typeCheckTime = 0 ∧
    (measureTypeChecking e).totalTime = 0 := by
  have hne : ("File not found: " ++ e.resolvedPath) ≠ "" := by
    intro hcontr
    have h1 : ("File not found: " ++ e.resolvedPath).length = 0 := by
      rw [hcontr]; rfl
    rw [String.length_append] at h1
    have h2 : ("File not found: " : String).length = 16 := rfl
    omega
  simp [measureTypeChecking, h, hne]

theorem prober_missing_file_failure_witness :
    ({ fileName := "missing.ts", resolvedPath := "/abs/missing.ts",
       fileExists := false, startTotal := 0, configPath := none,
       tryOutcome := .throwsErr "x", catchTime := 0 } : ProbeEnv).fileExists = false ∧
    ((measureTypeChecking
      { fileName := "missing.ts", resolvedPath := "/abs/missing.ts",
        fileExists := false, startTotal := 0, configPath := none,
        tryOutcome := .throwsErr "x", catchTime := 0 }).success = false ∧
     (measureTypeChecking
      { fileName := "missing.ts", resolvedPath := "/abs/missing.ts",
        fileExists := false, startTotal := 0, configPath := none,
        tryOutcome := .throwsErr "x", catchTime := 0 }).error =
        some ("File not found: " ++ "/abs/missing.ts") ∧
     ("File not found: " ++ "/abs/missing.ts") ≠ "" ∧
     (measureTypeChecking
      { fileName := "missing.ts", resolvedPath := "/abs/missing.ts",
        fileExists := false, startTotal := 0, configPath := none,
        tryOutcome := .throwsErr "x", catchTime := 0 }).typeCheckTime = 0 ∧
     (measureTypeChecking
      { fileName := "missing.ts", resolvedPath := "/abs/missing.ts",
        fileExists := false, startTotal := 0, configPath := none,
        tryOutcome := .throwsErr "x", catchTime := 0 }).totalTime = 0) :=
  ⟨rfl, prober_missing_file_failure _ rfl⟩

/-- C6: for a probe of an existing file, every error inside the try-block is
caught and converted into a failed Measurement carrying the error's message;
in particular the absence of a compiler configuration file yields the message
of the `Error` thrown at line 39 of `measure-typechecking.ts`.  No exception
escapes: `measureTypeChecking` is total and always returns a `TimingResult`. -/
theorem prober_catches_all_errors (e : ProbeEnv)
    (h : e.fileExists = true) :
    (e.configPath = none →
      (measureTypeChecking e).success = false ∧
      (measureTypeChecking e).error =
        some "Could not find a valid 'tsconfig.json'.") ∧
    (∀ c msg, e.configPath = some c → e.tryOutcome = .throwsErr msg →
      (measureTypeChecking e).success = false ∧
      (measureTypeChecking e).error = some msg) := by
  constructor
  · intro hc
    simp [measureTypeChecking, h, hc]
  · intro c msg hc hthrow
    simp [measureTypeChecking, h, hc, hthrow]

theorem prober_catches_all_errors_witness :
    ({ fileName := "a.ts", resolvedPath := "/abs/a.ts",
       fileExists := true, startTotal := 1, configPath := some "tsconfig.json",
       tryOutcome := .throwsErr "boom", catchTime := 3 } : ProbeEnv).fileExists = true ∧
    (measureTypeChecking
      { fileName := "a.ts", resolvedPath := "/abs/a.ts",
        fileExists := true, startTotal := 1, configPath := some "tsconfig.json",
        tryOutcome := .throwsErr "boom", catchTime := 3 }).success = false ∧
    (measureTypeChecking
      { fileName := "a.ts", resolvedPath := "/abs/a.ts",
        fileExists := true, startTotal := 1, configPath := some "tsconfig.json",
        tryOutcome := .throwsErr "boom", catchTime := 3 }).error = some "boom" :=
  ⟨rfl,
   ((prober_catches_all_errors _ rfl).2 "tsconfig.json" "boom" rfl rfl).1,
   ((prober_catches_all_errors _ rfl).2 "tsconfig.json" "boom" rfl rfl).2⟩

/-- C8: under the monotone-clock assumption, every Measurement satisfies
`0 ≤ typeCheckTime` and `typeCheckTime ≤ totalTime`; in the successful case
`totalTime` decomposes as the configuration-lookup-and-program-construction
time (`startTypeCheck - startTotal`, nonnegative) plus `typeCheckTime` plus the
time between the two trailing clock reads (`endTotal - endTypeCheck`,
nonnegative), so `totalTime` includes exactly the setup cost that
`typeCheckTime` excludes. -/
theorem measurement_time_bounds (e : ProbeEnv) (hwf : e.wf) :
    0 ≤ (measureTypeChecking e).typeCheckTime ∧
    (measureTypeChecking e).typeCheckTime ≤ (measureTypeChecking e).totalTime ∧
    (∀ st et etot diag, e.fileExists = true → e.configPath ≠ none →
      e.tryOutcome = .ok st et etot diag →
      (measureTypeChecking e).totalTime =
        (st - e.startTotal) + (measureTypeChecking e).typeCheckTime + (etot - et) ∧
      0 ≤ st - e.startTotal ∧ 0 ≤ etot - et) := by
  obtain ⟨hcatch, hrest⟩ := hwf
  refine ⟨?_, ?_, ?_⟩
  · cases hex : e.fileExists with
    | false => simp [measureTypeChecking, hex]
    | true =>
      rcases hcfg : e.configPath with _ | c
      · simp [measureTypeChecking, hex, hcfg]
      · rcases hout : e.tryOutcome with ⟨msg⟩ | ⟨st, et, etot, diag⟩
        · simp [measureTypeChecking, hex, hcfg, hout]
        · rw [hout] at hrest
          simp only [TryOutcome.wfAt] at hrest
          simp only [measureTypeChecking, hex, hcfg, hout]
          norm_num
          linarith [hrest.2.1]
  · cases hex : e.fileExists with
    | false => simp [measureTypeChecking, hex]
    | true =>
      rcases hcfg : e.configPath with _ | c
      · simp [measureTypeChecking, hex, hcfg]
        linarith
      · rcases hout : e.tryOutcome with ⟨msg⟩ | ⟨st, et, etot, diag⟩
        · simp [measureTypeChecking, hex, hcfg, hout]
          linarith
        · rw [hout] at hrest
          simp only [TryOutcome.wfAt] at hrest
          simp only [measureTypeChecking, hex, hcfg, hout]
          norm_num
          linarith [hrest.1, hrest.2.2]
  · intro st et etot diag hex hcfg hout
    rw [hout] at hrest
    simp only [TryOutcome.wfAt] at hrest
    rcases hcfg' : e.configPath with _ | c
    · exact absurd hcfg' hcfg
    · have hres : measureTypeChecking e =
        { file := e.fileName, typeCheckTime := et - st,
          totalTime := etot - e.startTotal, diagnosticsCount := diag,
          success := true, error := none } := by
        simp [measureTypeChecking, hex, hcfg', hout]
      rw [hres]
      dsimp only
      refine ⟨by ring, by linarith [hrest.1], by linarith [hrest.2.2]⟩

theorem measurement_time_bounds_witness :
    ({ fileName := "a.ts", resolvedPath := "/abs/a.ts",
       fileExists := true, startTotal := 1, configPath := some "tsconfig.json",
       tryOutcome := .ok 4 10 11 0, catchTime := 2 } : ProbeEnv).wf ∧
    (0 ≤ (measureTypeChecking
      { fileName := "a.ts", resolvedPath := "/abs/a.ts",
        fileExists := true, startTotal := 1, configPath := some "tsconfig.json",
        tryOutcome := .ok 4 10 11 0, catchTime := 2 }).typeCheckTime ∧
     (measureTypeChecking
      { fileName := "a.ts", resolvedPath := "/abs/a.ts",
        fileExists := true, startTotal := 1, configPath := some "tsconfig.json",
        tryOutcome := .ok 4 10 11 0, catchTime := 2 }).typeCheckTime ≤
     (measureTypeChecking
      { fileName := "a.ts", resolvedPath := "/abs/a.ts",
        fileExists := true, startTotal := 1, configPath := some "tsconfig.json",
        tryOutcome := .ok 4 10 11 0, catchTime := 2 }).totalTime) := by
  refine ⟨by decide, ?_, ?_⟩
  · exact (measurement_time_bounds _ (by decide)).1
  · exact (measurement_time_bounds _ (by decide)).2.1

/-!
## Benchmark Runner: measured phase

`runBenchmark` (lines 85-209 of `measure-typechecking.ts`) first probes every
file once as a warm-up, discarding the results, and then for each file runs the
loop `for (let i = 0; i < iterations; i++)` that probes, pushes the result, and
breaks on the first failed result.  Successive Prober calls for a file depend
on ambient file-system and compiler state, so the measured phase is modelled by
an oracle `m : String → Nat → TimingResult` giving the result of the `i`-th
measured probe of each file (warm-up results are discarded by the source, so
they need no index of their own).
-/

/-- One file's measured loop: `i` is the loop counter, the second argument the
remaining iterations.  Each iteration pushes the probe's result; a failed
result is pushed and then the loop breaks. -/
def measureLoop (m : Nat → TimingResult) : Nat → Nat → List TimingResult
  | _, 0 => []
  | i, n + 1 =>
    if (m i).success then m i :: measureLoop m (i + 1) n else [m i]

/-- `results[file]` after the measured phase for `file`. -/
def measuredResults (m : String → Nat → TimingResult) (file : String)
    (iterations : Nat) : List TimingResult :=
  measureLoop (m file) 0 iterations

/-- The file names passed to the Prober, in call order: one warm-up call per
entry of `files`, then the measured calls (one per recorded result). -/
def proberTrace (m : String → Nat → TimingResult) (files : List String)
    (iterations : Nat) : List String :=
  files ++ files.flatMap (fun f => (measuredResults m f iterations).map (fun _ => f))

theorem measureLoop_length_le (m : Nat → TimingResult) :
    ∀ (n i : Nat), (measureLoop m i n).length ≤ n := by
  intro n
  induction n with
  | zero => intro i; simp [measureLoop]
  | succ k ih =>
    intro i
    cases h : (m i).success with
    | true =>
      simp only [measureLoop, h, if_true, List.length_cons]
      have := ih (i + 1)
      omega
    | false => simp [measureLoop, h]

theorem measureLoop_length_pos (m : Nat → TimingResult)
    (n i : Nat) (hn : 1 ≤ n) : 1 ≤ (measureLoop m i n).length := by
  cases n with
  | zero => omega
  | succ k =>
    cases h : (m i).success with
    | true => simp [measureLoop, h]
    | false => simp [measureLoop, h]

theorem measureLoop_getElem (m : Nat → TimingResult) :
    ∀ (n i j : Nat), j < (measureLoop m i n).length →
      (measureLoop m i n)[j]? = some (m (i + j)) := by
  intro n
  induction n with
  | zero => intro i j hj; simp [measureLoop] at hj
  | succ k ih =>
    intro i j hj
    cases h : (m i).success with
    | true =>
      simp only [measureLoop, h, if_true, List.length_cons] at hj ⊢
      cases j with
      | zero => simp
      | succ j' =>
        have hidx : i + (j' + 1) = (i + 1) + j' := by omega
        rw [hidx]
        simp only [List.getElem?_cons_succ]
        exact ih (i + 1) j' (by omega)
    | false =>
      simp [measureLoop, h] at hj
      have hj0 : j = 0 := by omega
      subst hj0
      simp [measureLoop, h]

theorem measureLoop_success_of_not_last (m : Nat → TimingResult) :
    ∀ (n i j : Nat), j + 1 < (measureLoop m i n).length →
      (m (i + j)).success = true := by
  intro n
  induction n with
  | zero => intro i j hj; simp [measureLoop] at hj
  | succ k ih =>
    intro i j hj
    cases h : (m i).success with
    | true =>
      simp only [measureLoop, h, if_true, List.length_cons] at hj
      cases j with
      | zero => simpa using h
      | succ j' =>
        have hidx : i + (j' + 1) = (i + 1) + j' := by omega
        rw [hidx]
        exact ih (i + 1) j' (by omega)
    | false =>
      simp [measureLoop, h] at hj

theorem measureLoop_failfast (m : Nat → TimingResult) :
    ∀ (n i j : Nat), j < n → (m (i + j)).success = false →
      (measureLoop m i n).length ≤ j + 1 := by
  intro n
  induction n with
  | zero => intro i j hj; omega
  | succ k ih =>
    intro i j hj hfail
    cases h : (m i).success with
    | true =>
      simp only [measureLoop, h, if_true, List.length_cons]
      cases j with
      | zero =>
        rw [Nat.add_zero] at hfail
        rw [hfail] at h
        cases h
      | succ j' =>
        have hidx : i + (j' + 1) = (i + 1) + j' := by omega
        rw [hidx] at hfail
        have := ih (i + 1) j' (by omega) hfail
        omega
    | false => simp [measureLoop, h]

/-- C4: the Prober-call trace of `runBenchmark` opens with exactly one
discarded warm-up call per entry of `files`, in order; the rest of the trace is
the per-file measured calls.  For each file the measured phase makes at most
`N` calls (and at least one), the `j`-th recorded result is the `j`-th oracle
answer `m f j`, every recorded result except possibly the last is successful,
and after a failed `j`-th measurement no further call for that file is made
(`length ≤ j + 1`) — while every other file still gets its own measured
phase. -/
theorem runner_warmup_then_failfast_iterations
    (m : String → Nat → TimingResult) (files : List String) (N : Nat)
    (hN : 1 ≤ N) :
    (proberTrace m files N).take files.length = files ∧
    (proberTrace m files N).drop files.length
      = files.flatMap (fun f => (measuredResults m f N).map (fun _ => f)) ∧
    ∀ f ∈ files,
      (measuredResults m f N).length ≤ N ∧
      1 ≤ (measuredResults m f N).length ∧
      (∀ j, j < (measuredResults m f N).length →
        (measuredResults m f N)[j]? = some (m f j)) ∧
      (∀ j, j + 1 < (measuredResults m f N).length → (m f j).success = true) ∧
      (∀ j, j < N → (m f j).success = false →
        (measuredResults m f N).length ≤ j + 1) := by
  refine ⟨?_, ?_, ?_⟩
  · simp [proberTrace]
  · simp [proberTrace]
  · intro f _
    refine ⟨measureLoop_length_le (m f) N 0, measureLoop_length_pos (m f) N 0 hN,
      ?_, ?_, ?_⟩
    · intro j hj
      have := measureLoop_getElem (m f) N 0 j hj
      simpa using this
    · intro j hj
      have := measureLoop_success_of_not_last (m f) N 0 j hj
      simpa using this
    · intro j hj hfail
      exact measureLoop_failfast (m f) N 0 j hj (by simpa using hfail)

theorem runner_warmup_then_failfast_witness :
    1 ≤ 3 ∧
    (proberTrace
        (fun f i =>
          if f = "b" ∧ 1 ≤ i then ⟨"b", 0, 1, 0, false, some "err"⟩
          else ⟨f, 10, 12, 0, true, none⟩)
        ["a", "b"] 3).take (["a", "b"] : List String).length = ["a", "b"] ∧
    (measuredResults
        (fun f i =>
          if f = "b" ∧ 1 ≤ i then ⟨"b", 0, 1, 0, false, some "err"⟩
          else ⟨f, 10, 12, 0, true, none⟩)
        "b" 3).length ≤ 3 := by
  refine ⟨by decide, ?_, ?_⟩
  · exact (runner_warmup_then_failfast_iterations _ ["a", "b"] 3 (by decide)).1
  · exact ((runner_warmup_then_failfast_iterations _ ["a", "b"] 3 (by decide)).2.2
      "b" (by decide)).1

/-!
## Benchmark Runner: summary aggregation

Lines 119-155 of `measure-typechecking.ts`: for every entry of the results
record (JavaScript object keys are in first-insertion order, so one entry per
distinct file, modelled with `List.eraseDups`), either an `"ERROR"` row (empty
result list or failed first measurement) or a data row with
`avg = reduce(+)/length`, `Math.min(...)`, `Math.max(...)` over the mapped
`typeCheckTime`s of all recorded results, and the `diagnosticsCount` of the
first recorded result.  Numeric contents of the printed strings are modelled;
`Math.min`/`Math.max` spread over the non-empty list is the fold of
`min`/`max` over it.
-/

/-- One row of `summaryData`. -/
inductive SummaryRow where
  | errorRow (file : String)
  | dataRow (file : String) (avg minT maxT : Time) (diagnostics : Nat)
deriving DecidableEq

/-- The summary row built from one file's recorded results
(the body of the `for (const [file, fileResults] of Object.entries(results))`
loop). -/
def summaryOf (file : String) : List TimingResult → SummaryRow
  | [] => .errorRow file
  | r :: rest =>
    if r.success then
      .dataRow file
        ((((r :: rest).map (fun x => x.typeCheckTime)).sum) /
          ((((r :: rest).map (fun x => x.typeCheckTime)).length : ℚ)))
        ((rest.map (fun x => x.typeCheckTime)).foldl min r.typeCheckTime)
        ((rest.map (fun x => x.typeCheckTime)).foldl max r.typeCheckTime)
        r.diagnosticsCount
    else .errorRow file

/-- Summary row of one file of a run. -/
def summaryRowFor (m : String → Nat → TimingResult) (file : String)
    (iterations : Nat) : SummaryRow :=
  summaryOf file (measuredResults m file iterations)

/-- The whole summary table of a run. -/
def summaryData (m : String → Nat → TimingResult) (files : List String)
    (iterations : Nat) : List SummaryRow :=
  files.eraseDups.map (fun f => summaryRowFor m f iterations)

theorem foldl_min_spec (l : List ℚ) (a : ℚ) :
    l.foldl min a ≤ a ∧ (∀ x ∈ l, l.foldl min a ≤ x) ∧
    (l.foldl min a = a ∨ l.foldl min a ∈ l) := by
  induction l generalizing a with
  | nil => exact ⟨le_refl a, by simp, Or.inl rfl⟩
  | cons b bs ih =>
    obtain ⟨h1, h2, h3⟩ := ih (min a b)
    simp only [List.foldl_cons]
    refine ⟨le_trans h1 (min_le_left a b), ?_, ?_⟩
    · intro x hx
      rcases List.mem_cons.mp hx with hx | hx
      · rw [hx]; exact le_trans h1 (min_le_right a b)
      · exact h2 x hx
    · rcases h3 with h3 | h3
      · rcases min_choice a b with hm | hm
        · exact Or.inl (h3.trans hm)
        · refine Or.inr ?_
          rw [h3, hm]
          exact List.mem_cons_self b bs
      · exact Or.inr (List.mem_cons_of_mem b h3)

theorem foldl_max_spec (l : List ℚ) (a : ℚ) :
    a ≤ l.foldl max a ∧ (∀ x ∈ l, x ≤ l.foldl max a) ∧
    (l.foldl max a = a ∨ l.foldl max a ∈ l) := by
  induction l generalizing a with
  | nil => exact ⟨le_refl a, by simp, Or.inl rfl⟩
  | cons b bs ih =>
    obtain ⟨h1, h2, h3⟩ := ih (max a b)
    simp only [List.foldl_cons]
    refine ⟨le_trans (le_max_left a b) h1, ?_, ?_⟩
    · intro x hx
      rcases List.mem_cons.mp hx with hx | hx
      · rw [hx]; exact le_trans (le_max_right a b) h1
      · exact h2 x hx
    · rcases h3 with h3 | h3
      · rcases max_choice a b with hm | hm
        · exact Or.inl (h3.trans hm)
        · refine Or.inr ?_
          rw [h3, hm]
          exact List.mem_cons_self b bs
      · exact Or.inr (List.mem_cons_of_mem b h3)

theorem measuredResults_eq_cons (m : String → Nat → TimingResult)
    (f : String) (N : Nat) (hN : 1 ≤ N) :
    ∃ rest, measuredResults m f N = m f 0 :: rest := by
  cases N with
  | zero => omega
  | succ k =>
    cases h : (m f 0).success with
    | true => exact ⟨measureLoop (m f) 1 k, by simp [measuredResults, measureLoop, h]⟩
    | false => exact ⟨[], by simp [measuredResults, measureLoop, h]⟩

/-- C1 (amended): for a fixture whose first measurement succeeds, the summary
row's average is the sum of the `typeCheckTime`s of **all recorded**
measurements divided by their number, its min and max are attained members and
bounds of those same recorded `typeCheckTime`s — so a trailing failed
measurement, recorded with `typeCheckTime = 0`, participates — and the
diagnostic count is the first measurement's `diagnosticsCount`. -/
theorem summary_row_stats_over_recorded_results
    (m : String → Nat → TimingResult) (f : String) (N : Nat)
    (hN : 1 ≤ N) (hfirst : (m f 0).success = true) :
    ∃ mn mx,
      summaryRowFor m f N =
        .dataRow f
          ((((measuredResults m f N).map (fun x => x.typeCheckTime)).sum) /
            ((((measuredResults m f N).map (fun x => x.typeCheckTime)).length : ℚ)))
          mn mx (m f 0).diagnosticsCount ∧
      mn ∈ (measuredResults m f N).map (fun x => x.typeCheckTime) ∧
      (∀ t ∈ (measuredResults m f N).map (fun x => x.typeCheckTime), mn ≤ t) ∧
      mx ∈ (measuredResults m f N).map (fun x => x.typeCheckTime) ∧
      (∀ t ∈ (measuredResults m f N).map (fun x => x.typeCheckTime), t ≤ mx) := by
  obtain ⟨rest, hrest⟩ := measuredResults_eq_cons m f N hN
  refine ⟨(rest.map (fun x => x.typeCheckTime)).foldl min (m f 0).typeCheckTime,
          (rest.map (fun x => x.typeCheckTime)).foldl max (m f 0).typeCheckTime,
          ?_, ?_, ?_, ?_, ?_⟩
  · rw [summaryRowFor, hrest]
    simp [summaryOf, hfirst]
  · obtain ⟨h1, h2, h3⟩ :=
      foldl_min_spec (rest.map (fun x => x.typeCheckTime)) (m f 0).typeCheckTime
    rw [hrest]
    rcases h3 with h3 | h3
    · simp [h3]
    · simp only [List.map_cons]
      exact List.mem_cons_of_mem _ h3
  · obtain ⟨h1, h2, h3⟩ :=
      foldl_min_spec (rest.map (fun x => x.typeCheckTime)) (m f 0).typeCheckTime
    rw [hrest]
    intro t ht
    simp only [List.map_cons, List.mem_cons] at ht
    rcases ht with ht | ht
    · exact ht ▸ h1
    · exact h2 t ht
  · obtain ⟨h1, h2, h3⟩ :=
      foldl_max_spec (rest.map (fun x => x.typeCheckTime)) (m f 0).typeCheckTime
    rw [hrest]
    rcases h3 with h3 | h3
    · simp [h3]
    · simp only [List.map_cons]
      exact List.mem_cons_of_mem _ h3
  · obtain ⟨h1, h2, h3⟩ :=
      foldl_max_spec (rest.map (fun x => x.typeCheckTime)) (m f 0).typeCheckTime
    rw [hrest]
    intro t ht
    simp only [List.map_cons, List.mem_cons] at ht
    rcases ht with ht | ht
    · exact ht ▸ h1
    · exact h2 t ht

theorem summary_row_stats_witness :
    1 ≤ 2 ∧
    ((fun (_ : String) (i : Nat) =>
        if i = 0 then (⟨"a", 10, 12, 3, true, none⟩ : TimingResult)
        else ⟨"a", 0, 1, 0, false, some "boom"⟩) "a" 0).success = true ∧
    (∃ mn mx,
      summaryRowFor
          (fun _ i =>
            if i = 0 then (⟨"a", 10, 12, 3, true, none⟩ : TimingResult)
            else ⟨"a", 0, 1, 0, false, some "boom"⟩) "a" 2 =
        .dataRow "a"
          ((((measuredResults
              (fun _ i =>
                if i = 0 then (⟨"a", 10, 12, 3, true, none⟩ : TimingResult)
                else ⟨"a", 0, 1, 0, false, some "boom"⟩) "a" 2).map
              (fun x => x.typeCheckTime)).sum) /
            ((((measuredResults
              (fun _ i =>
                if i = 0 then (⟨"a", 10, 12, 3, true, none⟩ : TimingResult)
                else ⟨"a", 0, 1, 0, false, some "boom"⟩) "a" 2).map
              (fun x => x.typeCheckTime)).length : ℚ)))
          mn mx
          (((fun (_ : String) (i : Nat) =>
              if i = 0 then (⟨"a", 10, 12, 3, true, none⟩ : TimingResult)
              else ⟨"a", 0, 1, 0, false, some "boom"⟩) "a" 0).diagnosticsCount) ∧
      mn ∈ (measuredResults
              (fun _ i =>
                if i = 0 then (⟨"a", 10, 12, 3, true, none⟩ : TimingResult)
                else ⟨"a", 0, 1, 0, false, some "boom"⟩) "a" 2).map
            (fun x => x.typeCheckTime) ∧
      (∀ t ∈ (measuredResults
              (fun _ i =>
                if i = 0 then (⟨"a", 10, 12, 3, true, none⟩ : TimingResult)
                else ⟨"a", 0, 1, 0, false, some "boom"⟩) "a" 2).map
            (fun x => x.typeCheckTime), mn ≤ t) ∧
      mx ∈ (measuredResults
              (fun _ i =>
                if i = 0 then (⟨"a", 10, 12, 3, true, none⟩ : TimingResult)
                else ⟨"a", 0, 1, 0, false, some "boom"⟩) "a" 2).map
            (fun x => x.typeCheckTime) ∧
      (∀ t ∈ (measuredResults
              (fun _ i =>
                if i = 0 then (⟨"a", 10, 12, 3, true, none⟩ : TimingResult)
                else ⟨"a", 0, 1, 0, false, some "boom"⟩) "a" 2).map
            (fun x => x.typeCheckTime), t ≤ mx)) :=
  ⟨by decide, by decide,
   summary_row_stats_over_recorded_results _ "a" 2 (by decide) (by decide)⟩

/-- C1 counterexample: with first measurement successful (`typeCheckTime 10`,
3 diagnostics) and second failed (recorded with `typeCheckTime 0`), the code's
summary row is `avg 5, min 0, max 10` — the zeroed failed measurement IS
included — whereas the claim's stats over only the successful iterations
(`[10]`) would be `avg 10, min 10, max 10`. -/
theorem summary_includes_failed_iteration_time :
    summaryRowFor
        (fun _ i =>
          if i = 0 then (⟨"a", 10, 12, 3, true, none⟩ : TimingResult)
          else ⟨"a", 0, 1, 0, false, some "boom"⟩) "a" 2 =
      .dataRow "a" 5 0 10 3 ∧
    ((measuredResults
        (fun _ i =>
          if i = 0 then (⟨"a", 10, 12, 3, true, none⟩ : TimingResult)
          else ⟨"a", 0, 1, 0, false, some "boom"⟩) "a" 2).filter
      (fun r => r.success)).map (fun x => x.typeCheckTime) = [10] ∧
    SummaryRow.dataRow "a" 5 0 10 3 ≠ .dataRow "a" 10 10 10 3 := by
  refine ⟨?_, by decide, by decide⟩
  norm_num [summaryRowFor, summaryOf, measuredResults, measureLoop]

/-!
## Benchmark Runner: comparison table

Lines 158-198 of `measure-typechecking.ts`.  The comparison step re-reads the
averages from the summary strings (`parseFloat(row["Avg Type Check (ms)"])`
where the string was produced by `avg.toFixed(2)`), so it operates on the
2-decimal roundings of the averages; `toFixed(2)` rounds to the nearest
hundredth, half away from zero, which for every sign is `⌊100·x + 1/2⌋ / 100`
(`round2`).  The `reduce` picking the fastest row, the mapped ratio / diff
rows, and the `sort` by parsed absolute diff (the diff of two hundredth
multiples survives the `toFixed(2)`/`parseFloat` round-trip exactly, and
JavaScript `Array.prototype.sort` with a consistent numeric comparator is a
stable ascending sort, modelled by a stable insertion sort) follow the source
line by line.
-/

/-- `parseFloat(x.toFixed(2))`: round to the nearest hundredth, ties away from
zero. -/
def round2 (x : ℚ) : ℚ := ((⌊x * 100 + 1 / 2⌋ : ℤ) : ℚ) / 100

/-- One row of the comparison table: `baseline` records whether the
`"Relative Speed"` cell reads `"BASELINE"` (`ratio === 1`) rather than
`"…x slower"`. -/
structure ComparisonRow where
  file : String
  ratio : ℚ
  baseline : Bool
  diff : ℚ
deriving DecidableEq

/-- `summaryData.filter((d) => d["Avg Type Check (ms)"] !== "ERROR")`, each
kept row read back through `parseFloat` as its file name and 2-decimal
average. -/
def validData (rows : List SummaryRow) : List (String × ℚ) :=
  rows.filterMap (fun r =>
    match r with
    | .errorRow _ => none
    | .dataRow f avg _ _ _ => some (f, round2 avg))

/-- `validData.reduce((a, b) => parseFloat(a…) < parseFloat(b…) ? a : b)`:
JavaScript `reduce` without an initial value starts from the first element. -/
def fastestOf (p : String × ℚ) (rest : List (String × ℚ)) : String × ℚ :=
  rest.foldl (fun a b => if a.2 < b.2 then a else b) p

/-- The 2-decimal average of the `fastest` row (`fastestTime` in the source);
source throws a `TypeError` when `validData` is empty (`reduce` of an empty
array), so that case is unreachable in any run the claims quantify over. -/
def fastestTimeOf (rows : List SummaryRow) : ℚ :=
  match validData rows with
  | [] => 0
  | v :: vs => (fastestOf v vs).2

/-- Stable insertion of a row into a list sorted ascending by `diff`. -/
def insertByDiff (c : ComparisonRow) : List ComparisonRow → List ComparisonRow
  | [] => [c]
  | d :: ds => if c.diff ≤ d.diff then c :: d :: ds else d :: insertByDiff c ds

/-- Stable ascending sort by `diff`: extensionally equal to the source's
`sort((a, b) => parseFloat(a…) - parseFloat(b…))`, which is a stable
ascending sort by the (exactly round-tripped) diff values. -/
def sortByDiff : List ComparisonRow → List ComparisonRow
  | [] => []
  | c :: cs => insertByDiff c (sortByDiff cs)

/-- The comparison table (`comparisonData` in the source). -/
def comparisonData (rows : List SummaryRow) : List ComparisonRow :=
  match validData rows with
  | [] => []
  | v :: vs =>
    sortByDiff ((v :: vs).map (fun d =>
      { file := d.1
        ratio := d.2 / (fastestOf v vs).2
        baseline := decide (d.2 / (fastestOf v vs).2 = 1)
        diff := d.2 - (fastestOf v vs).2 }))

/-- The two tables printed by `runBenchmark`: the summary table, and (only
when it has more than one row) the comparison table. -/
def runBenchmarkTables (m : String → Nat → TimingResult) (files : List String)
    (iterations : Nat) : List SummaryRow × List ComparisonRow :=
  let rows := summaryData m files iterations
  (rows, if 1 < rows.length then comparisonData rows else [])

theorem round2_mono {x y : ℚ} (h : x ≤ y) : round2 x ≤ round2 y := by
  unfold round2
  have h1 : (⌊x * 100 + 1 / 2⌋ : ℤ) ≤ ⌊y * 100 + 1 / 2⌋ :=
    Int.floor_mono (by linarith)
  have h2 : ((⌊x * 100 + 1 / 2⌋ : ℤ) : ℚ) ≤ ((⌊y * 100 + 1 / 2⌋ : ℤ) : ℚ) := by
    exact_mod_cast h1
  linarith

theorem fastestOf_cons (p b : String × ℚ) (bs : List (String × ℚ)) :
    fastestOf p (b :: bs) = fastestOf (if p.2 < b.2 then p else b) bs := rfl

theorem fastestOf_le_of_mem :
    ∀ (rest : List (String × ℚ)) (p x : String × ℚ), x ∈ p :: rest →
      (fastestOf p rest).2 ≤ x.2 := by
  intro rest
  induction rest with
  | nil =>
    intro p x hx
    rcases List.mem_cons.mp hx with hx | hx
    · rw [hx]; exact le_refl _
    · simp at hx
  | cons b bs ih =>
    intro p x hx
    rw [fastestOf_cons]
    have hstep_p : (if p.2 < b.2 then p else b).2 ≤ p.2 := by
      split
      · exact le_refl _
      · exact le_of_not_lt (by assumption)
    have hstep_b : (if p.2 < b.2 then p else b).2 ≤ b.2 := by
      split
      · exact le_of_lt (by assumption)
      · exact le_refl _
    have hres : (fastestOf (if p.2 < b.2 then p else b) bs).2 ≤
        (if p.2 < b.2 then p else b).2 :=
      ih _ _ (List.mem_cons_self _ _)
    rcases List.mem_cons.mp hx with hx | hx
    · rw [hx]; exact hres.trans hstep_p
    · rcases List.mem_cons.mp hx with hx | hx
      · rw [hx]; exact hres.trans hstep_b
      · exact ih _ x (List.mem_cons_of_mem _ hx)

theorem fastestOf_mem :
    ∀ (rest : List (String × ℚ)) (p : String × ℚ),
      fastestOf p rest ∈ p :: rest := by
  intro rest
  induction rest with
  | nil => intro p; simp [fastestOf]
  | cons b bs ih =>
    intro p
    rw [fastestOf_cons]
    have := ih (if p.2 < b.2 then p else b)
    rcases List.mem_cons.mp this with h | h
    · rw [h]
      split
      · exact List.mem_cons_self _ _
      · exact List.mem_cons_of_mem _ (List.mem_cons_self _ _)
    · exact List.mem_cons_of_mem _ (List.mem_cons_of_mem _ h)

theorem mem_insertByDiff (x c : ComparisonRow) (l : List ComparisonRow) :
    x ∈ insertByDiff c l ↔ x = c ∨ x ∈ l := by
  induction l with
  | nil => simp [insertByDiff]
  | cons d ds ih =>
    by_cases hcd : c.diff ≤ d.diff
    · simp [insertByDiff, hcd]
    · simp only [insertByDiff, if_neg hcd, List.mem_cons, ih]
      tauto

theorem mem_sortByDiff (x : ComparisonRow) (l : List ComparisonRow) :
    x ∈ sortByDiff l ↔ x ∈ l := by
  induction l with
  | nil => simp [sortByDiff]
  | cons c cs ih =>
    simp only [sortByDiff, mem_insertByDiff, List.mem_cons, ih]

theorem pairwise_insertByDiff (c : ComparisonRow) (l : List ComparisonRow)
    (h : l.Pairwise (fun a b => a.diff ≤ b.diff)) :
    (insertByDiff c l).Pairwise (fun a b => a.diff ≤ b.diff) := by
  induction l with
  | nil => simp [insertByDiff]
  | cons d ds ih =>
    rw [List.pairwise_cons] at h
    obtain ⟨hd, hds⟩ := h
    by_cases hcd : c.diff ≤ d.diff
    · simp only [insertByDiff, if_pos hcd]
      refine List.Pairwise.cons ?_ (List.Pairwise.cons hd hds)
      intro x hx
      rcases List.mem_cons.mp hx with hx | hx
      · rw [hx]; exact hcd
      · exact le_trans hcd (hd x hx)
    · simp only [insertByDiff, if_neg hcd]
      refine List.Pairwise.cons ?_ (ih hds)
      intro x hx
      rcases (mem_insertByDiff x c ds).mp hx with hx | hx
      · rw [hx]; exact le_of_lt (lt_of_not_le hcd)
      · exact hd x hx

theorem pairwise_sortByDiff (l : List ComparisonRow) :
    (sortByDiff l).Pairwise (fun a b => a.diff ≤ b.diff) := by
  induction l with
  | nil => simp [sortByDiff]
  | cons c cs ih => exact pairwise_insertByDiff c (sortByDiff cs) ih

theorem validData_mem (rows : List SummaryRow) (p : String × ℚ) :
    p ∈ validData rows ↔
      ∃ fl avg mn mx dg, SummaryRow.dataRow fl avg mn mx dg ∈ rows ∧
        p = (fl, round2 avg) := by
  simp only [validData, List.mem_filterMap]
  constructor
  · rintro ⟨r, hr, hmatch⟩
    cases r with
    | errorRow f => simp at hmatch
    | dataRow f avg mn mx dg =>
      simp only [Option.some.injEq] at hmatch
      exact ⟨f, avg, mn, mx, dg, hr, hmatch.symm⟩
  · rintro ⟨fl, avg, mn, mx, dg, hmem, rfl⟩
    exact ⟨_, hmem, rfl⟩

theorem summaryRowFor_of_fail (m : String → Nat → TimingResult) (f : String)
    (N : Nat) (hN : 1 ≤ N) (h : (m f 0).success = false) :
    summaryRowFor m f N = .errorRow f := by
  obtain ⟨rest, hrest⟩ := measuredResults_eq_cons m f N hN
  rw [summaryRowFor, hrest]
  simp [summaryOf, h]

theorem summaryRowFor_of_success (m : String → Nat → TimingResult) (f : String)
    (N : Nat) (hN : 1 ≤ N) (h : (m f 0).success = true) :
    ∃ mn mx, summaryRowFor m f N =
      .dataRow f
        ((((measuredResults m f N).map (fun x => x.typeCheckTime)).sum) /
          ((((measuredResults m f N).map (fun x => x.typeCheckTime)).length : ℚ)))
        mn mx (m f 0).diagnosticsCount := by
  obtain ⟨rest, hrest⟩ := measuredResults_eq_cons m f N hN
  refine ⟨(rest.map (fun x => x.typeCheckTime)).foldl min (m f 0).typeCheckTime,
          (rest.map (fun x => x.typeCheckTime)).foldl max (m f 0).typeCheckTime, ?_⟩
  rw [summaryRowFor, hrest]
  simp [summaryOf, h]

theorem summaryRowFor_dataRow_inv (m : String → Nat → TimingResult)
    (f : String) (N : Nat) (fl : String) (avg mn mx : ℚ) (dg : Nat)
    (h : summaryRowFor m f N = .dataRow fl avg mn mx dg) :
    fl = f ∧ (m f 0).success = true := by
  cases N with
  | zero => simp [summaryRowFor, summaryOf, measuredResults, measureLoop] at h
  | succ k =>
    cases hs : (m f 0).success with
    | false =>
      rw [summaryRowFor_of_fail m f (k + 1) (Nat.le_add_left 1 k) hs] at h
      cases h
    | true =>
      obtain ⟨rest, hrest⟩ := measuredResults_eq_cons m f (k + 1) (Nat.le_add_left 1 k)
      rw [summaryRowFor, hrest] at h
      simp only [summaryOf, hs, if_true] at h
      cases h
      exact ⟨rfl, rfl⟩

/-- C2: in a run whose summary table has more than one row (at least two
fixtures) and at least one comparison candidate with positive fastest
2-decimal average: the comparison table is exactly the non-`"ERROR"` rows
(a fixture is in it iff its first measurement succeeded, and a failed first
measurement yields the `"ERROR"` summary row); every row's ratio is its
2-decimal average divided by the fastest row's, is `≥ 1`, its diff is the
difference of those averages, and `"BASELINE"` is shown exactly for ratio 1;
any fixture whose (true) average is globally lowest gets ratio exactly 1 and
the `"BASELINE"` label; and the table is sorted ascending by diff. -/
theorem comparison_table_baseline_ratio_delta_sorted
    (m : String → Nat → TimingResult) (files : List String) (N : Nat)
    (hN : 1 ≤ N)
    (hlen : 1 < (summaryData m files N).length)
    (hv : validData (summaryData m files N) ≠ [])
    (hpos : 0 < fastestTimeOf (summaryData m files N)) :
    (runBenchmarkTables m files N).2 = comparisonData (summaryData m files N) ∧
    (∀ f ∈ files.eraseDups, (m f 0).success = false →
      summaryRowFor m f N = .errorRow f) ∧
    (∀ f, (∃ c ∈ comparisonData (summaryData m files N), c.file = f) ↔
      (f ∈ files.eraseDups ∧ (m f 0).success = true)) ∧
    (∀ p ∈ validData (summaryData m files N),
      ∃ c ∈ comparisonData (summaryData m files N),
        c.file = p.1 ∧
        c.ratio = p.2 / fastestTimeOf (summaryData m files N) ∧
        1 ≤ c.ratio ∧
        (c.baseline = true ↔ c.ratio = 1) ∧
        c.diff = p.2 - fastestTimeOf (summaryData m files N)) ∧
    (∀ fl avg mn mx dg,
      SummaryRow.dataRow fl avg mn mx dg ∈ summaryData m files N →
      (∀ fl' avg' mn' mx' dg',
        SummaryRow.dataRow fl' avg' mn' mx' dg' ∈ summaryData m files N →
        avg ≤ avg') →
      ∃ c ∈ comparisonData (summaryData m files N),
        c.file = fl ∧ c.ratio = 1 ∧ c.baseline = true) ∧
    (comparisonData (summaryData m files N)).Pairwise
      (fun a b => a.diff ≤ b.diff) := by
  obtain ⟨v, vs, hval⟩ := List.exists_cons_of_ne_nil hv
  have hft : fastestTimeOf (summaryData m files N) = (fastestOf v vs).2 := by
    simp only [fastestTimeOf, hval]
  have hpos' : 0 < (fastestOf v vs).2 := hft ▸ hpos
  have hcomp : comparisonData (summaryData m files N) =
      sortByDiff ((v :: vs).map (fun d =>
        ({ file := d.1
           ratio := d.2 / (fastestOf v vs).2
           baseline := decide (d.2 / (fastestOf v vs).2 = 1)
           diff := d.2 - (fastestOf v vs).2 } : ComparisonRow))) := by
    simp only [comparisonData, hval]
  have hrow : ∀ p ∈ validData (summaryData m files N),
      ∃ c ∈ comparisonData (summaryData m files N),
        c.file = p.1 ∧ c.ratio = p.2 / (fastestOf v vs).2 ∧
        1 ≤ c.ratio ∧ (c.baseline = true ↔ c.ratio = 1) ∧
        c.diff = p.2 - (fastestOf v vs).2 := by
    intro p hp
    rw [hval] at hp
    refine ⟨{ file := p.1
              ratio := p.2 / (fastestOf v vs).2
              baseline := decide (p.2 / (fastestOf v vs).2 = 1)
              diff := p.2 - (fastestOf v vs).2 }, ?_, rfl, rfl, ?_, ?_, rfl⟩
    · rw [hcomp, mem_sortByDiff]
      exact List.mem_map.mpr ⟨p, hp, rfl⟩
    · exact (one_le_div hpos').mpr (fastestOf_le_of_mem vs v p hp)
    · simp
  refine ⟨?_, ?_, ?_, ?_, ?_, ?_⟩
  · show (if 1 < (summaryData m files N).length
        then comparisonData (summaryData m files N) else []) =
      comparisonData (summaryData m files N)
    rw [if_pos hlen]
  · intro f _ hfail
    exact summaryRowFor_of_fail m f N hN hfail
  · intro f
    constructor
    · rintro ⟨c, hc, hcf⟩
      rw [hcomp, mem_sortByDiff] at hc
      obtain ⟨p, hp, hgp⟩ := List.mem_map.mp hc
      have hpfile : c.file = p.1 := by rw [← hgp]
      rw [← hval] at hp
      obtain ⟨fl, avg, mn, mx, dg, hmem, hpeq⟩ := (validData_mem _ _).mp hp
      rw [summaryData] at hmem
      obtain ⟨f', hf', hrowEq⟩ := List.mem_map.mp hmem
      obtain ⟨hflf', hsucc⟩ :=
        summaryRowFor_dataRow_inv m f' N fl avg mn mx dg hrowEq
      have h1 : f = fl := by rw [← hcf, hpfile, hpeq]
      constructor
      · rw [h1, hflf']; exact hf'
      · rw [h1, hflf']; exact hsucc
    · rintro ⟨hf, hsucc⟩
      obtain ⟨mn, mx, hrowEq⟩ := summaryRowFor_of_success m f N hN hsucc
      have hmem := List.mem_map_of_mem (fun f => summaryRowFor m f N) hf
      dsimp only at hmem
      rw [hrowEq] at hmem
      rw [← summaryData] at hmem
      have hp := (validData_mem (summaryData m files N) _).mpr
        ⟨f, _, mn, mx, _, hmem, rfl⟩
      obtain ⟨c, hc, hcf, _⟩ := hrow _ hp
      exact ⟨c, hc, hcf⟩
  · intro p hp
    rw [hft]
    exact hrow p hp
  · intro fl avg mn mx dg hmem hminimal
    have hp := (validData_mem (summaryData m files N) _).mpr
      ⟨fl, avg, mn, mx, dg, hmem, rfl⟩
    have hfmem : fastestOf v vs ∈ v :: vs := fastestOf_mem vs v
    rw [← hval] at hfmem
    obtain ⟨flm, avgm, mnm, mxm, dgm, hmemm, hfeq⟩ := (validData_mem _ _).mp hfmem
    have hft2 : (fastestOf v vs).2 = round2 avgm := by rw [hfeq]
    have hle1 : round2 avg ≤ (fastestOf v vs).2 := by
      rw [hft2]
      exact round2_mono (hminimal flm avgm mnm mxm dgm hmemm)
    have hle2 : (fastestOf v vs).2 ≤ round2 avg := by
      have hp' := hp
      rw [hval] at hp'
      exact fastestOf_le_of_mem vs v (fl, round2 avg) hp'
    have heq : round2 avg = (fastestOf v vs).2 := le_antisymm hle1 hle2
    obtain ⟨c, hc, hcf, hratio, _, hbiff, _⟩ := hrow _ hp
    have hratio1 : c.ratio = 1 := by
      rw [hratio]
      show round2 avg / (fastestOf v vs).2 = 1
      rw [heq]
      exact div_self (ne_of_gt hpos')
    exact ⟨c, hc, hcf, hratio1, hbiff.mpr hratio1⟩
  · rw [hcomp]
    exact pairwise_sortByDiff _

/-- Concrete two-fixture oracle for exercising the comparison table: `"slow"`
measures 30 ms per iteration, every other file 10 ms, all successful. -/
def c2Oracle : String → Nat → TimingResult := fun f _ =>
  if f = "slow" then ⟨f, 30, 31, 1, true, none⟩ else ⟨f, 10, 11, 2, true, none⟩

theorem comparison_table_witness :
    1 ≤ 1 ∧
    1 < (summaryData c2Oracle ["fast", "slow"] 1).length ∧
    validData (summaryData c2Oracle ["fast", "slow"] 1) ≠ [] ∧
    0 < fastestTimeOf (summaryData c2Oracle ["fast", "slow"] 1) ∧
    (runBenchmarkTables c2Oracle ["fast", "slow"] 1).2 =
      comparisonData (summaryData c2Oracle ["fast", "slow"] 1) ∧
    (comparisonData (summaryData c2Oracle ["fast", "slow"] 1)).Pairwise
      (fun a b => a.diff ≤ b.diff) := by
  have h1 : summaryRowFor c2Oracle "fast" 1 = .dataRow "fast" 10 10 10 2 := by
    simp [summaryRowFor, summaryOf, measuredResults, measureLoop, c2Oracle]
  have h2 : summaryRowFor c2Oracle "slow" 1 = .dataRow "slow" 30 30 30 1 := by
    simp [summaryRowFor, summaryOf, measuredResults, measureLoop, c2Oracle]
  have h3 : summaryData c2Oracle ["fast", "slow"] 1 =
      [summaryRowFor c2Oracle "fast" 1, summaryRowFor c2Oracle "slow" 1] := rfl
  have h4 : validData (summaryData c2Oracle ["fast", "slow"] 1) =
      [("fast", round2 10), ("slow", round2 30)] := by
    rw [h3, h1, h2]
    simp [validData]
  have hr10 : round2 10 = 10 := by norm_num [round2]
  have hr30 : round2 30 = 30 := by norm_num [round2]
  have hpos : 0 < fastestTimeOf (summaryData c2Oracle ["fast", "slow"] 1) := by
    have h5 : fastestTimeOf (summaryData c2Oracle ["fast", "slow"] 1) = 10 := by
      simp only [fastestTimeOf, h4, hr10, hr30, fastestOf]
      norm_num [List.foldl]
    rw [h5]
    norm_num
  refine ⟨by decide, by decide, by decide, hpos, ?_, ?_⟩
  · exact (comparison_table_baseline_ratio_delta_sorted c2Oracle ["fast", "slow"]
      1 (by decide) (by decide) (by decide) hpos).1
  · exact (comparison_table_baseline_ratio_delta_sorted c2Oracle ["fast", "slow"]
      1 (by decide) (by decide) (by decide) hpos).2.2.2.2.2

/-!
## Benchmark Runner: command line (`main`, lines 211-238)

`main` prints usage and exits 1 only when `process.argv.slice(2)` is empty;
otherwise it looks for the first `--iterations=` argument, parses the piece
after the first `"="` with `parseInt` (ECMAScript semantics: skip leading
whitespace, optional sign, `0x`/`0X` hex prefix, longest digit prefix, `NaN`
when no digit), applies `|| 5` (so `NaN` and `0` silently fall back to the
default 5), and filters every `--iterations=` argument out of the probed file
list.
-/

/-- Leading whitespace skipped by `parseInt`. -/
def isJsWhitespace (c : Char) : Bool :=
  c == ' ' || c == '\t' || c == '\n' || c == '\r' || c == '\x0b' || c == '\x0c'

/-- Hexadecimal digit as accepted by `parseInt` with a `0x` prefix. -/
def isHexDigitJs (c : Char) : Bool :=
  c.isDigit || ('a' ≤ c && c ≤ 'f') || ('A' ≤ c && c ≤ 'F')

def hexVal (c : Char) : Nat :=
  if c.isDigit then c.toNat - '0'.toNat
  else if 'a' ≤ c && c ≤ 'f' then c.toNat - 'a'.toNat + 10
  else c.toNat - 'A'.toNat + 10

/-- Longest prefix of digits accepted by the predicate. -/
def takeDigits (isD : Char → Bool) : List Char → List Char
  | [] => []
  | c :: cs => if isD c then c :: takeDigits isD cs else []

def digitsVal (base : Nat) (val : Char → Nat) (ds : List Char) : Nat :=
  ds.foldl (fun acc c => acc * base + val c) 0

/-- ECMAScript `parseInt(string)` (radix omitted): `none` models `NaN`. -/
def parseIntJS (s : String) : Option Int :=
  let cs := s.data.dropWhile isJsWhitespace
  let sign : Int := match cs with | '-' :: _ => -1 | _ => 1
  let cs2 := match cs with
    | '-' :: rest => rest
    | '+' :: rest => rest
    | _ => cs
  match cs2 with
  | '0' :: x :: rest =>
    if x = 'x' ∨ x = 'X' then
      let ds := takeDigits isHexDigitJs rest
      if ds.isEmpty then none else some (sign * (digitsVal 16 hexVal ds : Int))
    else
      let ds := takeDigits Char.isDigit cs2
      if ds.isEmpty then none
      else some (sign * (digitsVal 10 (fun c => c.toNat - '0'.toNat) ds : Int))
  | _ =>
    let ds := takeDigits Char.isDigit cs2
    if ds.isEmpty then none
    else some (sign * (digitsVal 10 (fun c => c.toNat - '0'.toNat) ds : Int))

/-- `String.prototype.split("=")` on character lists. -/
def jsSplitEqList : List Char → List (List Char)
  | [] => [[]]
  | c :: rest =>
    if c = '=' then [] :: jsSplitEqList rest
    else
      match jsSplitEqList rest with
      | [] => [[c]]
      | h :: t => (c :: h) :: t

/-- `s.split("=")`. -/
def jsSplitEq (s : String) : List String :=
  (jsSplitEqList s.data).map (fun cs => String.mk cs)

/-- `String.prototype.startsWith`, computed on the character lists. -/
def strStartsWith (s p : String) : Bool := p.data.isPrefixOf s.data

/-- Lines 225-233 of `measure-typechecking.ts`: resolve the iteration count
and the probed file list from the arguments. -/
def parseIterationsArgs (args : List String) : List String × Int :=
  match args.find? (fun a => strStartsWith a "--iterations=") with
  | none => (args, 5)
  | some a =>
    let n : Int :=
      match parseIntJS ((jsSplitEq a).getD 1 "") with
      | none => 5
      | some k => if k = 0 then 5 else k
    (args.filter (fun a => !(strStartsWith a "--iterations=")), n)

/-- The observable decision of `main`: print usage and exit 1, or run the
benchmark on the given files and iteration count. -/
inductive MainOutcome where
  | usage (exitCode : Nat)
  | run (files : List String) (iterations : Int)
deriving DecidableEq

/-- `main` (lines 211-238). -/
def main (args : List String) : MainOutcome :=
  if args.isEmpty then .usage 1
  else
    let p := parseIterationsArgs args
    .run p.1 p.2

theorem jsSplitEqList_ne_nil : ∀ l : List Char, jsSplitEqList l ≠ [] := by
  intro l
  cases l with
  | nil => simp [jsSplitEqList]
  | cons c rest =>
    by_cases h : c = '='
    · simp [jsSplitEqList, h]
    · simp only [jsSplitEqList, if_neg h]
      cases jsSplitEqList rest with
      | nil => simp
      | cons a t => simp

theorem jsSplitEqList_no_sep (l : List Char) (h : ∀ c ∈ l, c ≠ '=') :
    jsSplitEqList l = [l] := by
  induction l with
  | nil => rfl
  | cons c rest ih =>
    have hc : c ≠ '=' := h c (List.mem_cons_self _ _)
    have hrest := ih (fun d hd => h d (List.mem_cons_of_mem _ hd))
    simp only [jsSplitEqList, if_neg hc, hrest]

theorem jsSplitEqList_append (l rest : List Char) (hns : ∀ c ∈ l, c ≠ '=')
    (h : List Char) (t : List (List Char)) :
    jsSplitEqList rest = h :: t →
      jsSplitEqList (l ++ rest) = (l ++ h) :: t := by
  intro hrest
  induction l with
  | nil => simpa using hrest
  | cons c l' ih =>
    have hc : c ≠ '=' := hns c (List.mem_cons_self _ _)
    have ih' := ih (fun d hd => hns d (List.mem_cons_of_mem _ hd))
    simp only [List.cons_append, jsSplitEqList, if_neg hc, List.append_eq, ih']

theorem jsSplitEq_marker (v : String) (hnoeq : ∀ c ∈ v.data, c ≠ '=') :
    jsSplitEq ("--iterations=" ++ v) = ["--iterations", v] := by
  have hdata : ("--iterations=" ++ v).data =
      ("--iterations" : String).data ++ ('=' :: v.data) := by
    rw [String.data_append]
    rfl
  have h2 : jsSplitEqList v.data = [v.data] := jsSplitEqList_no_sep _ hnoeq
  have h3 : jsSplitEqList ('=' :: v.data) = [] :: [v.data] := by
    simp [jsSplitEqList, h2]
  have h4 := jsSplitEqList_append ("--iterations" : String).data ('=' :: v.data)
    (by decide) [] [v.data] h3
  rw [jsSplitEq, hdata, h4]
  have h5 : String.mk v.data = v := by cases v; rfl
  simp [h5]

/-- C10: when the first `--iterations=` argument carries the value `v`
(no further `"="` in `v`), the iteration count used is `parseInt(v)` when that
is a non-zero number and 5 when `parseInt(v)` is `NaN` or `0`; every
`--iterations=` argument is removed from the list of files to probe. -/
theorem iterations_flag_parsing (args : List String) (v : String)
    (hfound : args.find? (fun a => strStartsWith a "--iterations=") =
      some ("--iterations=" ++ v))
    (hnoeq : ∀ c ∈ v.data, c ≠ '=') :
    parseIterationsArgs args =
      (args.filter (fun a => !(strStartsWith a "--iterations=")),
       match parseIntJS v with
       | none => (5 : Int)
       | some k => if k = 0 then 5 else k) := by
  simp only [parseIterationsArgs, hfound]
  rw [jsSplitEq_marker v hnoeq]
  rfl

theorem iterations_flag_parsing_witness :
    (["--iterations=0", "x.ts"].find?
        (fun a => strStartsWith a "--iterations=") =
      some ("--iterations=" ++ "0")) ∧
    (∀ c ∈ ("0" : String).data, c ≠ '=') ∧
    parseIterationsArgs ["--iterations=0", "x.ts"] =
      (["--iterations=0", "x.ts"].filter
        (fun a => !(strStartsWith a "--iterations=")),
       match parseIntJS "0" with
       | none => (5 : Int)
       | some k => if k = 0 then 5 else k) :=
  ⟨by decide, by decide,
   iterations_flag_parsing ["--iterations=0", "x.ts"] "0" (by decide) (by decide)⟩

/-- C9 counterexample: an invocation with a `--iterations=` flag but no
positional file argument does NOT print usage and exit 1 — `main` only checks
for a fully empty argument list, and here proceeds to run the benchmark on an
empty file list with 3 iterations. -/
theorem flags_only_args_run_not_usage :
    main ["--iterations=3"] = .run [] 3 ∧
    main ["--iterations=3"] ≠ .usage 1 := by
  refine ⟨?_, ?_⟩ <;> decide

/-- C9 (amended): the usage message and exit code 1 happen exactly when the
argument list is empty; any non-empty argument list (even one consisting only
of `--iterations=` flags) runs the benchmark on the filtered file list. -/
theorem usage_iff_no_args (args : List String) :
    (main args = .usage 1 ↔ args = []) ∧
    (args ≠ [] →
      main args = .run (parseIterationsArgs args).1 (parseIterationsArgs args).2) := by
  cases args with
  | nil =>
    refine ⟨by simp [main], fun h => absurd rfl h⟩
  | cons a as =>
    refine ⟨?_, fun _ => by simp [main]⟩
    constructor
    · intro h
      simp [main] at h
    · intro h
      cases h

theorem usage_iff_no_args_witness :
    (main ["--iterations=3"] = .usage 1 ↔ (["--iterations=3"] : List String) = []) ∧
    ((["--iterations=3"] : List String) ≠ [] →
      main ["--iterations=3"] =
        .run (parseIterationsArgs ["--iterations=3"]).1
          (parseIterationsArgs ["--iterations=3"]).2) :=
  usage_iff_no_args ["--iterations=3"]

/-!
## Batch Orchestrator (`test.ts`)

The top-level flow: parse flags (`getGenerateOptions` throws when
`--onlyGenerate` and `--skipGenerate` are both present — before the generation
subprocess is spawned and before any fixture is discovered or run), run
`prisma generate` unless skipped (a failing generation rejects uncaught and
crashes the run), exit 0 when only generating, then for each discovered
`*.bench.ts` file either record a skip (name filter present, truthy, and not a
substring of the file name) or spawn `node benchFile` and record
success / failure from its exit status; finally exit 1 iff `hasAnyFailure` was
set, which happens exactly in the catch-branch of a spawned fixture.
Subprocess exit statuses and the generation outcome are the environment
(`BatchEnv`); the discovered file list stands for the `readdir`-dependent
`getBenchmarkFiles` result.
-/

def shouldUpdateSnapshots (args : List String) : Bool :=
  args.contains "-u" || args.contains "--updateSnapshots"

/-- `getGenerateOptions` (lines 58-71 of `test.ts`): `.error` models the
thrown `Error`. -/
def getGenerateOptions (args : List String) : Except String (Bool × Bool) :=
  let shouldOnlyGenerate := args.contains "--onlyGenerate"
  let shouldSkipGenerate := args.contains "--skipGenerate"
  if shouldOnlyGenerate && shouldSkipGenerate then
    .error "Cannot run generate and skip generate at the same time"
  else
    .ok (shouldOnlyGenerate, shouldSkipGenerate)

/-- `getTestFilter`: the first argument not starting with `"-"`. -/
def getTestFilter (args : List String) : Option String :=
  args.find? (fun a => !(strStartsWith a "-"))

/-- Occurrence of `sub` at any position (`String.prototype.includes` on the
character lists). -/
def occursIn (sub : List Char) : List Char → Bool
  | [] => sub.isPrefixOf ([] : List Char)
  | c :: rest => sub.isPrefixOf (c :: rest) || occursIn sub rest

/-- `s.includes(sub)`. -/
def stringIncludes (s sub : String) : Bool := occursIn sub.data s.data

/-- Per-fixture outcome as printed by `printResults`: skipped, success, or
failed. -/
inductive Outcome where
  | success
  | failure
  | skipped
deriving DecidableEq

/-- Environment of one Orchestrator run: the discovered `*.bench.ts` files in
directory order, whether each fixture subprocess exits 0, and whether the
generation subprocess exits 0. -/
structure BatchEnv where
  benchFiles : List String
  subprocOk : String → Bool
  generateOk : Bool

/-- The skip condition `testFilter && !benchFile.includes(testFilter)`: a
missing filter and the empty string are both falsy in JavaScript. -/
def skipsFile (filter : Option String) (f : String) : Bool :=
  match filter with
  | none => false
  | some s => !(s == "") && !(stringIncludes f s)

/-- Body of the fixture loop (lines 28-41 of `test.ts`) for one file. -/
def fixtureOutcome (filter : Option String) (ok : String → Bool)
    (f : String) : Outcome :=
  if skipsFile filter f then .skipped
  else if ok f then .success else .failure

/-- The `results` array after the fixture loop. -/
def runFixtures (filter : Option String) (ok : String → Bool)
    (files : List String) : List (String × Outcome) :=
  files.map (fun f => (f, fixtureOutcome filter ok f))

/-- The files for which `runBenchmark` spawns a subprocess, in order. -/
def spawnedFiles (filter : Option String) (files : List String) :
    List String :=
  files.filter (fun f => !(skipsFile filter f))

/-- `hasAnyFailure` after the loop: set only in the catch-branch of
`runBenchmark`, i.e. when a spawned fixture subprocess exits non-zero. -/
def hasAnyFailure (filter : Option String) (ok : String → Bool)
    (files : List String) : Bool :=
  (runFixtures filter ok files).any (fun p => p.2 == Outcome.failure)

/-- `process.exit(hasAnyFailure ? 1 : 0)` (line 45 of `test.ts`). -/
def aggExitCode (filter : Option String) (ok : String → Bool)
    (files : List String) : Nat :=
  if hasAnyFailure filter ok files then 1 else 0

/-- Externally visible steps of a run, in order. -/
inductive BatchEvent where
  | generate
  | discover
  | spawn (file : String)
deriving DecidableEq

/-- How a run ends: an uncaught thrown `Error`, an uncaught subprocess
rejection (failed generation), or `process.exit`. -/
inductive BatchResult where
  | thrown (msg : String)
  | crashed
  | exited (code : Nat)
deriving DecidableEq

/-- Top-level flow of `test.ts` (lines 6-45). -/
def orchestrate (args : List String) (env : BatchEnv) :
    List BatchEvent × BatchResult :=
  match getGenerateOptions args with
  | .error msg => ([], .thrown msg)
  | .ok (shouldOnlyGenerate, shouldSkipGenerate) =>
    let filter := getTestFilter args
    let genEvents := if shouldSkipGenerate then [] else [BatchEvent.generate]
    if !shouldSkipGenerate && !env.generateOk then
      (genEvents, .crashed)
    else if shouldOnlyGenerate then
      (genEvents, .exited 0)
    else
      (genEvents ++ [BatchEvent.discover] ++
        (spawnedFiles filter env.benchFiles).map BatchEvent.spawn,
       .exited (aggExitCode filter env.subprocOk env.benchFiles))

theorem fixtureOutcome_eq_failure (filter : Option String) (ok : String → Bool)
    (f : String) :
    fixtureOutcome filter ok f = .failure ↔
      (skipsFile filter f = false ∧ ok f = false) := by
  unfold fixtureOutcome
  cases hs : skipsFile filter f with
  | true => simp
  | false =>
    cases ho : ok f with
    | true => simp
    | false => simp

theorem fixtureOutcome_eq_skipped (filter : Option String) (ok : String → Bool)
    (f : String) :
    fixtureOutcome filter ok f = .skipped ↔ skipsFile filter f = true := by
  unfold fixtureOutcome
  cases hs : skipsFile filter f with
  | true => simp
  | false =>
    cases ho : ok f with
    | true => simp
    | false => simp

/-- C3: a run whose flags are consistent, not generate-only, and whose
generation step does not fail reaches aggregation and exits with
`aggExitCode`; that exit code is 1 iff some non-skipped fixture's subprocess
exited non-zero; a fixture recorded as skipped is not among the spawned
files; and a run whose recorded outcomes are only successes and skips exits
with code 0. -/
theorem orchestrator_exit_code_iff_failure (args : List String)
    (env : BatchEnv) (onlyGen skipGen : Bool)
    (hget : getGenerateOptions args = .ok (onlyGen, skipGen))
    (honly : onlyGen = false)
    (hgen : skipGen = true ∨ env.generateOk = true) :
    orchestrate args env =
      ((if skipGen then [] else [BatchEvent.generate]) ++ [BatchEvent.discover] ++
        (spawnedFiles (getTestFilter args) env.benchFiles).map BatchEvent.spawn,
       .exited (aggExitCode (getTestFilter args) env.subprocOk env.benchFiles)) ∧
    (aggExitCode (getTestFilter args) env.subprocOk env.benchFiles = 1 ↔
      ∃ f ∈ env.benchFiles, skipsFile (getTestFilter args) f = false ∧
        env.subprocOk f = false) ∧
    (∀ f, (f, Outcome.skipped) ∈
        runFixtures (getTestFilter args) env.subprocOk env.benchFiles →
      f ∉ spawnedFiles (getTestFilter args) env.benchFiles) ∧
    ((∀ p ∈ runFixtures (getTestFilter args) env.subprocOk env.benchFiles,
        p.2 = Outcome.success ∨ p.2 = Outcome.skipped) →
      aggExitCode (getTestFilter args) env.subprocOk env.benchFiles = 0) := by
  subst honly
  refine ⟨?_, ?_, ?_, ?_⟩
  · simp only [orchestrate, hget]
    rcases hgen with h | h
    · subst h; simp
    · cases hsk : skipGen with
      | true => simp
      | false => simp [h]
  · constructor
    · intro h1
      cases hB : hasAnyFailure (getTestFilter args) env.subprocOk env.benchFiles with
      | false => simp [aggExitCode, hB] at h1
      | true =>
        obtain ⟨p, hp, hpf⟩ := List.any_eq_true.mp hB
        obtain ⟨f, hf, hfp⟩ := List.mem_map.mp hp
        refine ⟨f, hf, ?_⟩
        rw [← fixtureOutcome_eq_failure (getTestFilter args) env.subprocOk f]
        have : p.2 = Outcome.failure := by
          exact beq_iff_eq.mp (by exact hpf)
        rw [← hfp] at this
        exact this
    · rintro ⟨f, hf, hsk, hok⟩
      have hfail : fixtureOutcome (getTestFilter args) env.subprocOk f =
          Outcome.failure :=
        (fixtureOutcome_eq_failure _ _ _).mpr ⟨hsk, hok⟩
      have hmem : (f, fixtureOutcome (getTestFilter args) env.subprocOk f) ∈
          runFixtures (getTestFilter args) env.subprocOk env.benchFiles :=
        List.mem_map_of_mem _ hf
      have hB : hasAnyFailure (getTestFilter args) env.subprocOk env.benchFiles
          = true := by
        refine List.any_eq_true.mpr ⟨_, hmem, ?_⟩
        simp [hfail]
      simp [aggExitCode, hB]
  · intro f hmem hspawn
    obtain ⟨f', hf', hfp⟩ := List.mem_map.mp hmem
    have hff : f' = f := congrArg Prod.fst hfp
    subst hff
    have hout : fixtureOutcome (getTestFilter args) env.subprocOk f' =
        Outcome.skipped := congrArg Prod.snd hfp
    have hskip : skipsFile (getTestFilter args) f' = true :=
      (fixtureOutcome_eq_skipped _ _ _).mp hout
    have := (List.mem_filter.mp hspawn).2
    simp [hskip] at this
  · intro hall
    cases hB : hasAnyFailure (getTestFilter args) env.subprocOk env.benchFiles with
    | false => simp [aggExitCode, hB]
    | true =>
      obtain ⟨p, hp, hpf⟩ := List.any_eq_true.mp hB
      have hpfail : p.2 = Outcome.failure := beq_iff_eq.mp (by exact hpf)
      rcases hall p hp with h | h <;> rw [h] at hpfail <;> cases hpfail

def c3Args : List String := ["a"]

def c3Env : BatchEnv :=
  { benchFiles := ["a.bench.ts", "b.bench.ts"]
    subprocOk := fun _ => true
    generateOk := true }

theorem orchestrator_exit_code_witness :
    getGenerateOptions c3Args = .ok (false, false) ∧
    ((false : Bool) = true ∨ c3Env.generateOk = true) ∧
    (aggExitCode (getTestFilter c3Args) c3Env.subprocOk c3Env.benchFiles = 1 ↔
      ∃ f ∈ c3Env.benchFiles, skipsFile (getTestFilter c3Args) f = false ∧
        c3Env.subprocOk f = false) ∧
    aggExitCode (getTestFilter c3Args) c3Env.subprocOk c3Env.benchFiles = 0 := by
  refine ⟨rfl, Or.inr rfl, ?_, by decide⟩
  exact (orchestrator_exit_code_iff_failure c3Args c3Env false false
    rfl rfl (Or.inr rfl)).2.1

/-- C7: when both `--onlyGenerate` and `--skipGenerate` are supplied,
`getGenerateOptions` throws at module initialisation: the run ends with the
thrown error, with an empty event trace — no generation subprocess, no
fixture discovery, no fixture run. -/
theorem conflicting_generate_flags_fail_fast (args : List String)
    (env : BatchEnv)
    (h1 : args.contains "--onlyGenerate" = true)
    (h2 : args.contains "--skipGenerate" = true) :
    orchestrate args env =
      ([], .thrown "Cannot run generate and skip generate at the same time") := by
  have hget : getGenerateOptions args =
      .error "Cannot run generate and skip generate at the same time" := by
    unfold getGenerateOptions
    rw [h1, h2]
    rfl
  simp [orchestrate, hget]

theorem conflicting_generate_flags_witness :
    (["--onlyGenerate", "--skipGenerate"].contains "--onlyGenerate" = true) ∧
    (["--onlyGenerate", "--skipGenerate"].contains "--skipGenerate" = true) ∧
    orchestrate ["--onlyGenerate", "--skipGenerate"]
        { benchFiles := ["a.bench.ts"], subprocOk := fun _ => false,
          generateOk := true } =
      ([], .thrown "Cannot run generate and skip generate at the same time") :=
  ⟨by decide, by decide,
   conflicting_generate_flags_fail_fast ["--onlyGenerate", "--skipGenerate"]
     { benchFiles := ["a.bench.ts"], subprocOk := fun _ => false,
       generateOk := true } (by decide) (by decide)⟩

end TypeBench
